import Mathlib

/-!
# Verification of the immich_ml_proxy routing core

Shallow embedding of the Go sources of `immich_ml_proxy`:

* `config/config.go` (the variant embedded in the repository README, which
  carries the `Health` map and the type-routing lookups) — the `Config`
  structure and its operations;
* `proxy/proxy.go` — entry parsing, grouping, and per-type payload rebuilding;
* `handlers/handlers.go` (the first, most complete variant in
  `src/unnamed/part_000`) — `PingHandler`, the routing/selection portion of
  `PredictHandler`, its post-barrier aggregation and result assembly, and
  `ConfigPostHandler`.

Go maps are embedded as association lists with first-match lookup and
replace-first insertion; goroutine fan-out is embedded as a per-group outcome
function joined at the barrier, which makes the no-cancellation barrier
semantics explicit.
-/

namespace ImmichMLProxy

/-- JSON values as decoded by `encoding/json` into `map[string]interface{}` /
`[]interface{}` / primitives. Objects keep declaration order as a list. -/
inductive Json where
  | obj : List (String × Json) → Json
  | arr : List Json → Json
  | str : String → Json
  | num : Int → Json
  | bool : Bool → Json
  | null : Json

/-- Whether a JSON value is an object (`map[string]interface{}` after decode). -/
def Json.isObj : Json → Bool
  | .obj _ => true
  | _ => false

/-- The field list of a JSON object, `[]` on non-objects. -/
def Json.fields : Json → List (String × Json)
  | .obj kvs => kvs
  | _ => []

/-- First-match lookup in an association list: the read side of a Go map. -/
def lookupAssoc {α : Type} : List (String × α) → String → Option α
  | [], _ => none
  | (k, v) :: rest, k' => if k = k' then some v else lookupAssoc rest k'

/-- Replace-first insertion in an association list: the write side of a Go map
(`m[k] = v`). -/
def setAssoc {α : Type} : List (String × α) → String → α → List (String × α)
  | [], k, v => [(k, v)]
  | (k', v') :: rest, k, v =>
    if k' = k then (k, v) :: rest else (k', v') :: setAssoc rest k v

@[simp] theorem lookupAssoc_nil {α : Type} (k : String) :
    lookupAssoc ([] : List (String × α)) k = none := rfl

@[simp] theorem lookupAssoc_cons {α : Type} (k k' : String) (v : α) (rest) :
    lookupAssoc ((k, v) :: rest) k' =
      if k = k' then some v else lookupAssoc rest k' := rfl

theorem lookupAssoc_setAssoc_self {α : Type} (m : List (String × α)) (k : String) (v : α) :
    lookupAssoc (setAssoc m k v) k = some v := by
  induction m with
  | nil => simp [setAssoc, lookupAssoc]
  | cons p rest ih =>
    obtain ⟨k', v'⟩ := p
    by_cases h : k' = k
    · simp [setAssoc, lookupAssoc, h]
    · simp [setAssoc, lookupAssoc, h, ih]

theorem lookupAssoc_setAssoc_ne {α : Type} (m : List (String × α)) (k k' : String) (v : α)
    (h : k ≠ k') : lookupAssoc (setAssoc m k v) k' = lookupAssoc m k' := by
  induction m with
  | nil => simp [setAssoc, lookupAssoc, h]
  | cons p rest ih =>
    obtain ⟨k₀, v₀⟩ := p
    by_cases h0 : k₀ = k
    · subst h0
      simp [setAssoc, lookupAssoc, h]
    · simp [setAssoc, lookupAssoc, h0, ih]

/-- `config.Backend`. -/
structure Backend where
  name : String
  url : String
deriving DecidableEq, Repr

/-- `config.HealthStatus`. -/
inductive HealthStatus where
  | healthy
  | unhealthy
  | unknown
deriving DecidableEq, Repr

/-- `config.BackendHealth`. -/
structure BackendHealth where
  status : HealthStatus
  lastCheck : Int
  error : String
deriving DecidableEq, Repr

/-- `config.Config`.  The `modelTypeRouting` field is assigned by the
handlers variant (`cfg.ModelTypeRouting = req.ModelTypeRouting`) although the
`config.go` variant in the sources omits it; it is inert for every operation
embedded here. -/
structure Config where
  DefaultBackend : String
  Backends : List Backend
  TaskRouting : List (String × String)
  ModelTypeRouting : List (String × String)
  Health : List (String × BackendHealth)
deriving DecidableEq, Repr

/-- The linear first-match scan `for _, backend := range c.Backends
{ if backend.Name == name ... }` used throughout `config.go`. -/
def findBackend : List Backend → String → Option Backend
  | [], _ => none
  | b :: rest, n => if b.name = n then some b else findBackend rest n

/-- The linear first-match scan by URL in `PredictHandler`
(`for _, b := range allBackends { if b.URL == selectedURL ... }`). -/
def findByURL : List Backend → String → Option Backend
  | [], _ => none
  | b :: rest, u => if b.url = u then some b else findByURL rest u

/-- `Config.GetAllBackendURLs`. -/
def Config.GetAllBackendURLs (c : Config) : List String :=
  c.Backends.map Backend.url

/-- `Config.GetBackendsByType`: the singleton routed backend when
`TaskRouting` has an entry that resolves, else the empty list. -/
def Config.GetBackendsByType (c : Config) (typeName : String) : List Backend :=
  match lookupAssoc c.TaskRouting typeName with
  | some backendName =>
    match findBackend c.Backends backendName with
    | some b => [b]
    | none => []
  | none => []

/-- `Config.GetHealthyBackendsByType`: as `GetBackendsByType` but requiring a
health record with status healthy for the routed backend. -/
def Config.GetHealthyBackendsByType (c : Config) (typeName : String) : List Backend :=
  match lookupAssoc c.TaskRouting typeName with
  | some backendName =>
    match findBackend c.Backends backendName with
    | some b =>
      match lookupAssoc c.Health b.name with
      | some h => if h.status = HealthStatus.healthy then [b] else []
      | none => []
    | none => []
  | none => []

/-- `Config.GetAllTypes`: the keys of `TaskRouting`. -/
def Config.GetAllTypes (c : Config) : List String :=
  c.TaskRouting.map Prod.fst

/-- `Config.GetDefaultBackend`. -/
def Config.GetDefaultBackend (c : Config) : Option Backend :=
  if c.DefaultBackend = "" then none
  else findBackend c.Backends c.DefaultBackend

/-- `Config.GetHealthStatus`: the stored record, or an `unknown` record when
absent. -/
def Config.GetHealthStatus (c : Config) (backendName : String) : BackendHealth :=
  match lookupAssoc c.Health backendName with
  | some h => h
  | none => { status := HealthStatus.unknown, lastCheck := 0, error := "" }

/-- `Config.SetHealthStatus`; `now` stands for `time.Now().Unix()`. -/
def Config.SetHealthStatus (c : Config) (backendName : String)
    (status : HealthStatus) (error : String) (now : Int) : Config :=
  let rec' : BackendHealth := { status := status, lastCheck := now, error := error }
  { c with Health := setAssoc c.Health backendName rec' }

/-- The per-type round-robin cursor map held by the `proxy` package. -/
structure RRState where
  cursors : List (String × Nat)
deriving DecidableEq, Repr

/-- Current cursor for a type, `0` when the type has not been selected yet. -/
def cursorOf (s : RRState) (t : String) : Nat :=
  (lookupAssoc s.cursors t).getD 0

/-- Modelled from the spec: the body of `proxy.GetNextBackend` is not among
the provided sources (only its caller in `PredictHandler` is).  Per the spec,
round-robin selection maintains one cursor per type and on each selection
chooses `pool[cursor mod len(pool)]` then increments the cursor; the caller
treats an empty string as "no backend available", so an empty pool yields
`""` and leaves the cursor untouched. -/
def GetNextBackend (t : String) (pool : List String) (s : RRState) : String × RRState :=
  if pool.length = 0 then ("", s)
  else
    let cur := cursorOf s t
    (pool.getD (cur % pool.length) "", { cursors := setAssoc s.cursors t (cur + 1) })

/-- Cursor state after `n` further selections for type `t` over a fixed pool. -/
def rrStates (t : String) (pool : List String) (s : RRState) : Nat → RRState
  | 0 => s
  | n + 1 => (GetNextBackend t pool (rrStates t pool s n)).2

/-- The `n`-th selection (0-based) for type `t` over a fixed pool, starting
from cursor state `s`. -/
def rrSelect (t : String) (pool : List String) (s : RRState) (n : Nat) : String :=
  (GetNextBackend t pool (rrStates t pool s n)).1

/-- Outcome of the candidate-pool computation in `PredictHandler`
(lines of the `if selectedBackend == nil` block). -/
inductive PoolResult where
  | noBackend
  | defaultB (b : Backend)
  | pool (urls : List String)
deriving DecidableEq, Repr

/-- The candidate-pool determination of `PredictHandler`: if the type has no
resolved routing (`allBackends` empty) fall back to the default backend
(`noBackend` when unset or missing); otherwise the URL list of the healthy
backends when non-empty, else of all backends. -/
def candidatePool (c : Config) (t : String) : PoolResult :=
  let healthyBackends := c.GetHealthyBackendsByType t
  let allBackends := c.GetBackendsByType t
  if allBackends.length = 0 then
    match (if c.DefaultBackend = "" then none else findBackend c.Backends c.DefaultBackend) with
    | some b => PoolResult.defaultB b
    | none => PoolResult.noBackend
  else
    if healthyBackends.length > 0 then PoolResult.pool (healthyBackends.map Backend.url)
    else PoolResult.pool (allBackends.map Backend.url)

/-- Result of backend selection for one type group. -/
inductive SelectResult where
  | err (msg : String)
  | ok (b : Backend)
deriving DecidableEq, Repr

/-- The backend-selection portion of `PredictHandler` for a type group whose
clip model-type pre-check selected nothing: candidate pool, round-robin pick,
then resolution of the picked URL against `allBackends`.  (In Go an
unresolvable URL would leave `selectedBackend` nil; that branch is embedded
as an error and proved unreachable.) -/
def selectBackendForType (c : Config) (t : String) (s : RRState) : SelectResult × RRState :=
  match candidatePool c t with
  | PoolResult.noBackend => (SelectResult.err ("no backend available for type: " ++ t), s)
  | PoolResult.defaultB b => (SelectResult.ok b, s)
  | PoolResult.pool urls =>
    let pick := GetNextBackend t urls s
    if pick.1 = "" then (SelectResult.err ("no backend available for type: " ++ t), pick.2)
    else
      match findByURL (c.GetBackendsByType t) pick.1 with
      | some b => (SelectResult.ok b, pick.2)
      | none => (SelectResult.err "selected backend not found", pick.2)

/-- Health bookkeeping after a forwarded `/predict` call returned a response
with `statusCode` and `body` (`PredictHandler` lines 261-268): 200 marks the
backend healthy, anything else unhealthy with the captured status and body. -/
def updateHealthAfterForward (c : Config) (b : Backend) (statusCode : Nat)
    (body : String) (now : Int) : Config :=
  if statusCode = 200 then c.SetHealthStatus b.name HealthStatus.healthy "" now
  else c.SetHealthStatus b.name HealthStatus.unhealthy
    ("status " ++ toString statusCode ++ ": " ++ body) now

/-- Result of an active `/ping` probe against one backend URL
(`proxy.CheckBackendHealth`): healthy iff HTTP 200 with body exactly `pong`. -/
structure ProbeResult where
  healthy : Bool
  error : String

/-- The parallel probe loop of `PingHandler` (lines 57-76): probe every
configured backend and record the outcome in the health map.  The goroutines
join at `wg.Wait()`; with distinct backend names the write order is
irrelevant, and this embedding serialises them in `Backends` order. -/
def updateHealthFromProbes (c : Config) (probe : String → ProbeResult) (now : Int) : Config :=
  c.Backends.foldl
    (fun acc b =>
      if (probe b.url).healthy then acc.SetHealthStatus b.name HealthStatus.healthy "" now
      else acc.SetHealthStatus b.name HealthStatus.unhealthy (probe b.url).error now)
    c

/-- HTTP outcome of `GET /ping`: `pong` is 200 with plain-text body `pong`,
`unavailable` is 503. -/
inductive PingResponse where
  | pong
  | unavailable
deriving DecidableEq, Repr

/-- `PingHandler` (first handlers variant): 503 when no backends are
configured; otherwise probe all backends, then require the default backend to
exist with healthy status and every routed type to have a non-empty healthy
backend list. -/
def PingHandler (c : Config) (probe : String → ProbeResult) (now : Int) :
    PingResponse × Config :=
  if c.GetAllBackendURLs.length = 0 then (PingResponse.unavailable, c)
  else
    let c' := updateHealthFromProbes c probe now
    match c'.GetDefaultBackend with
    | none => (PingResponse.unavailable, c')
    | some defaultBackend =>
      if (c'.GetHealthStatus defaultBackend.name).status ≠ HealthStatus.healthy then
        (PingResponse.unavailable, c')
      else
        if c'.GetAllTypes.all (fun typeName => (c'.GetHealthyBackendsByType typeName).length ≠ 0)
        then (PingResponse.pong, c')
        else (PingResponse.unavailable, c')

/-- `handlers.ConfigRequest` (first variant, with model-type routing). -/
structure ConfigRequest where
  defaultBackend : String
  backends : List Backend
  taskRouting : List (String × String)
  modelTypeRouting : List (String × String)
deriving DecidableEq, Repr

/-- HTTP outcome of `POST /api/config`. -/
inductive ConfigPostResponse where
  | badRequest (msg : String)
  | serverError (msg : String)
  | ok
deriving DecidableEq, Repr

/-- In-memory registry plus the parsed content of the persisted
`config.json`. -/
structure ServerState where
  mem : Config
  file : Config
deriving DecidableEq, Repr

/-- `ConfigPostHandler`: validate (non-empty backend list, non-empty default,
default present in the list), then assign the new configuration to the
in-memory registry, then call `cfg.Save()`; `saveOk` is the outcome of the
`os.WriteFile` collaborator call, and a failed save leaves the file with its
previous content. -/
def ConfigPostHandler (s : ServerState) (req : ConfigRequest) (saveOk : Bool) :
    ServerState × ConfigPostResponse :=
  if req.backends.length = 0 then
    (s, ConfigPostResponse.badRequest "At least one backend must be configured")
  else if req.defaultBackend = "" then
    (s, ConfigPostResponse.badRequest "A default backend must be configured")
  else if (findBackend req.backends req.defaultBackend).isNone then
    (s, ConfigPostResponse.badRequest "Default backend must exist in the backends list")
  else
    let mem' : Config :=
      { s.mem with
        DefaultBackend := req.defaultBackend
        Backends := req.backends
        TaskRouting := req.taskRouting
        ModelTypeRouting := req.modelTypeRouting }
    if saveOk then ({ mem := mem', file := mem' }, ConfigPostResponse.ok)
    else ({ mem := mem', file := s.file }, ConfigPostResponse.serverError "save failed")

/-- `proxy.Entry`. -/
structure Entry where
  task : String
  type : String
  entryData : Json
  index : Nat

/-- The inner loop of `proxy.ParseEntries`: one entry per type field of a
task, numbered consecutively from `idx` in encounter order. -/
def entriesOfTypes (task : String) : List (String × Json) → Nat → List Entry
  | [], _ => []
  | (typeKey, typeValue) :: rest, idx =>
    { task := task, type := typeKey, entryData := typeValue, index := idx }
      :: entriesOfTypes task rest (idx + 1)

/-- The per-task loop body of `proxy.ParseEntries`: each task value must be a
JSON object; its fields become entries numbered from `idx` on. -/
def parseEntriesAux : List (String × Json) → Nat → Except String (List Entry)
  | [], _ => Except.ok []
  | (task, v) :: rest, idx =>
    match v with
    | Json.obj types =>
      match parseEntriesAux rest (idx + types.length) with
      | Except.ok more => Except.ok (entriesOfTypes task types idx ++ more)
      | Except.error e => Except.error e
    | _ => Except.error ("invalid types structure for task: " ++ task)

/-- `proxy.ParseEntries` over an already-decoded top-level object. -/
def ParseEntries (entriesMap : List (String × Json)) : Except String (List Entry) :=
  parseEntriesAux entriesMap 0

/-- The parsing pipeline of `PredictHandler`: `ParseEntriesFromRequest`
unmarshals the `entries` form value into `map[string]interface{}` — failing
when the top-level JSON value is not an object — and `ParseEntries` flattens
it. -/
def parsePredictEntries (j : Json) : Except String (List Entry) :=
  match j with
  | Json.obj kvs => ParseEntries kvs
  | _ => Except.error "json: cannot unmarshal value into map[string]interface {}"

/-- `proxy.GroupEntriesByType`, read as the fiber of a type name. -/
def groupOfType (entries : List Entry) (t : String) : List Entry :=
  entries.filter (fun e => e.type = t)

/-- Deduplication keeping first occurrences, in order. -/
def dedupKeepFirst : List String → List String
  | [] => []
  | x :: xs => x :: (dedupKeepFirst xs).filter (fun y => y ≠ x)

/-- The distinct type names of an entry list — the key set of
`proxy.GroupEntriesByType`, in first-encounter order. -/
def typesOf (entries : List Entry) : List String :=
  dedupKeepFirst (entries.map Entry.type)

/-- What one type group's goroutine wrote at the barrier: a parsed JSON
object into `typeResults`, or an error into `typeErrors`. -/
inductive GroupOutcome where
  | ok (result : List (String × Json))
  | err (msg : String)

/-- Whether the group failed. -/
def GroupOutcome.isErr : GroupOutcome → Bool
  | GroupOutcome.ok _ => false
  | GroupOutcome.err _ => true

/-- The group's parsed result (`[]` for a failed group, never read then). -/
def GroupOutcome.result : GroupOutcome → List (String × Json)
  | GroupOutcome.ok r => r
  | GroupOutcome.err _ => []

/-- The group's error message (`""` for a successful group, never read then). -/
def GroupOutcome.msg : GroupOutcome → String
  | GroupOutcome.ok _ => ""
  | GroupOutcome.err m => m

/-- The inner merge loop of the assembler: `for key, value := range typeResult
{ finalResult[key] = value }`. -/
def mergeObj (acc : List (String × Json)) (m : List (String × Json)) :
    List (String × Json) :=
  m.foldl (fun acc2 kv => setAssoc acc2 kv.1 kv.2) acc

/-- The result assembler of `PredictHandler` (lines 327-338): walk the
entries in original order and write every key of the entry's type result into
the final map. -/
def assemble (entries : List Entry) (typeResults : String → List (String × Json)) :
    List (String × Json) :=
  entries.foldl (fun acc e => mergeObj acc (typeResults e.type)) []

/-- HTTP outcome of `POST /predict` after the fan-out barrier. -/
inductive PredictResponse where
  | serverError (msgs : List String)
  | ok (result : List (String × Json))

/-- The post-barrier tail of `PredictHandler` (lines 312-341): every type
group has contributed an outcome (the barrier waits for all, a failure never
cancels a sibling); if any group failed, answer 500 with one message per
failed type, otherwise assemble. -/
def predictFinish (entries : List Entry) (outcome : String → GroupOutcome) :
    PredictResponse :=
  let failed := (typesOf entries).filter (fun t => (outcome t).isErr)
  if failed.length > 0 then
    PredictResponse.serverError
      (failed.map (fun t => "type " ++ t ++ ": " ++ (outcome t).msg))
  else
    PredictResponse.ok (assemble entries (fun t => (outcome t).result))

/-! ## Registry lookup lemmas -/

theorem getHealthy_sub_getBackends (c : Config) (t : String) :
    List.Sublist (c.GetHealthyBackendsByType t) (c.GetBackendsByType t) := by
  unfold Config.GetHealthyBackendsByType Config.GetBackendsByType
  rcases h1 : lookupAssoc c.TaskRouting t with _ | n <;> simp only [h1]
  · simp
  rcases h2 : findBackend c.Backends n with _ | b0 <;> simp only [h2]
  · simp
  rcases h3 : lookupAssoc c.Health b0.name with _ | h <;> simp only [h3]
  · simp
  by_cases hs : h.status = HealthStatus.healthy <;> simp [hs]

theorem getHealthy_eq_all_of_ne_nil (c : Config) (t : String)
    (hne : c.GetHealthyBackendsByType t ≠ []) :
    c.GetHealthyBackendsByType t = c.GetBackendsByType t := by
  unfold Config.GetHealthyBackendsByType Config.GetBackendsByType at *
  rcases h1 : lookupAssoc c.TaskRouting t with _ | n <;> simp only [h1] at hne ⊢
  rcases h2 : findBackend c.Backends n with _ | b0 <;> simp only [h2] at hne ⊢
  rcases h3 : lookupAssoc c.Health b0.name with _ | h <;> simp only [h3] at hne ⊢
  · exact absurd rfl hne
  by_cases hs : h.status = HealthStatus.healthy
  · simp [hs]
  · simp [hs] at hne

theorem mem_getHealthy_status (c : Config) (t : String) (b : Backend)
    (hb : b ∈ c.GetHealthyBackendsByType t) :
    ∃ h, lookupAssoc c.Health b.name = some h ∧ h.status = HealthStatus.healthy := by
  unfold Config.GetHealthyBackendsByType at hb
  rcases h1 : lookupAssoc c.TaskRouting t with _ | n <;> simp only [h1] at hb
  · simp at hb
  rcases h2 : findBackend c.Backends n with _ | b0 <;> simp only [h2] at hb
  · simp at hb
  rcases hh : lookupAssoc c.Health b0.name with _ | h <;> simp only [hh] at hb
  · simp at hb
  by_cases hs : h.status = HealthStatus.healthy
  · simp [hs] at hb
    subst hb
    exact ⟨h, hh, hs⟩
  · simp [hs] at hb

/-- C10 (part): `GetBackendsByType` returns at most one backend. -/
theorem getBackends_length_le_one (c : Config) (t : String) :
    (c.GetBackendsByType t).length ≤ 1 := by
  unfold Config.GetBackendsByType
  rcases h1 : lookupAssoc c.TaskRouting t with _ | n <;> simp only [h1]
  · simp
  rcases h2 : findBackend c.Backends n with _ | b0 <;> simp [h2]

/--
C10: for every registry state and type name `t`, `GetBackendsByType t` has
length at most one, and is empty exactly when `t` has no routing-table entry
or the routed name matches no configured backend; `GetHealthyBackendsByType t`
is always a sublist of it, equal to it exactly when the routed backend's
health record exists with status healthy, and empty otherwise.
-/
theorem routed_pool_singleton_healthy_sublist (c : Config) (t : String) :
    (c.GetBackendsByType t).length ≤ 1 ∧
    (c.GetBackendsByType t = [] ↔
      (lookupAssoc c.TaskRouting t = none ∨
        ∃ n, lookupAssoc c.TaskRouting t = some n ∧ findBackend c.Backends n = none)) ∧
    List.Sublist (c.GetHealthyBackendsByType t) (c.GetBackendsByType t) ∧
    (c.GetHealthyBackendsByType t = c.GetBackendsByType t ∨
      c.GetHealthyBackendsByType t = []) ∧
    (∀ b, c.GetBackendsByType t = [b] →
      (c.GetHealthyBackendsByType t = [b] ↔
        ∃ h, lookupAssoc c.Health b.name = some h ∧ h.status = HealthStatus.healthy)) := by
  refine ⟨getBackends_length_le_one c t, ?_, getHealthy_sub_getBackends c t, ?_, ?_⟩
  · unfold Config.GetBackendsByType
    rcases hru : lookupAssoc c.TaskRouting t with _ | n <;> simp only [hru]
    · simp
    rcases hb : findBackend c.Backends n with _ | b0 <;> simp [hb]
  · by_cases hne : c.GetHealthyBackendsByType t = []
    · exact Or.inr hne
    · exact Or.inl (getHealthy_eq_all_of_ne_nil c t hne)
  · intro b hall
    constructor
    · intro hh
      exact mem_getHealthy_status c t b (by simp [hh])
    · rintro ⟨h, hh, hs⟩
      unfold Config.GetBackendsByType at hall
      unfold Config.GetHealthyBackendsByType
      rcases hru : lookupAssoc c.TaskRouting t with _ | n <;> simp only [hru] at hall ⊢
      · simp at hall
      rcases hb : findBackend c.Backends n with _ | b0 <;> simp only [hb] at hall ⊢
      · simp at hall
      simp at hall
      subst hall
      simp [hh, hs]

/-- Witness for C10 at a concrete registry: routing resolves to `backendB`
with a healthy record, so the healthy list equals the routed singleton. -/
theorem routed_pool_singleton_healthy_sublist_witness :
    (let c : Config :=
      { DefaultBackend := "a", Backends := [⟨"a", "ua"⟩, ⟨"b", "ub"⟩],
        TaskRouting := [("img", "b")], ModelTypeRouting := [],
        Health := [("b", ⟨HealthStatus.healthy, 5, ""⟩)] }
     c.GetBackendsByType "img" = [⟨"b", "ub"⟩] ∧
       c.GetHealthyBackendsByType "img" = [⟨"b", "ub"⟩]) := by
  refine ⟨by decide, ?_⟩
  exact ((routed_pool_singleton_healthy_sublist _ "img").2.2.2.2 ⟨"b", "ub"⟩
    (by decide)).mpr ⟨⟨HealthStatus.healthy, 5, ""⟩, by decide, rfl⟩

/-! ## Candidate pool (C3) -/

theorem candidatePool_of_healthy_ne_nil (c : Config) (t : String)
    (hh : c.GetHealthyBackendsByType t ≠ []) :
    candidatePool c t = PoolResult.pool ((c.GetHealthyBackendsByType t).map Backend.url) := by
  have hall : c.GetBackendsByType t ≠ [] := by
    rw [← getHealthy_eq_all_of_ne_nil c t hh]
    exact hh
  simp [candidatePool, List.length_eq_zero, hall, hh, List.length_pos]

/--
C3: for a type group `t` (reaching the routing-table logic), if `t` has no
resolved routing entry — the all-backends list is empty — the single default
backend is chosen, with a per-type no-backend error when the default is unset
or missing from `Backends`; otherwise the candidate pool is exactly the
healthy list when it is non-empty, and the full unfiltered backend list when
the healthy list is empty.
-/
theorem candidate_pool_spec (c : Config) (t : String) :
    ((c.GetBackendsByType t = [] ∧
        (c.DefaultBackend = "" ∨ findBackend c.Backends c.DefaultBackend = none)) →
      candidatePool c t = PoolResult.noBackend) ∧
    (∀ b, (c.GetBackendsByType t = [] ∧ c.DefaultBackend ≠ "" ∧
        findBackend c.Backends c.DefaultBackend = some b) →
      candidatePool c t = PoolResult.defaultB b) ∧
    ((c.GetBackendsByType t ≠ [] ∧ c.GetHealthyBackendsByType t ≠ []) →
      candidatePool c t =
        PoolResult.pool ((c.GetHealthyBackendsByType t).map Backend.url)) ∧
    ((c.GetBackendsByType t ≠ [] ∧ c.GetHealthyBackendsByType t = []) →
      candidatePool c t = PoolResult.pool ((c.GetBackendsByType t).map Backend.url)) := by
  refine ⟨?_, ?_, ?_, ?_⟩
  · rintro ⟨hall, hdef⟩
    rcases hdef with hd | hf
    · simp [candidatePool, hall, hd]
    · by_cases hd : c.DefaultBackend = "" <;> simp [candidatePool, hall, hd, hf]
  · intro b
    rintro ⟨hall, hne, hfb⟩
    simp [candidatePool, hall, hne, hfb]
  · rintro ⟨hall, hh⟩
    exact candidatePool_of_healthy_ne_nil c t hh
  · rintro ⟨hall, hh⟩
    simp [candidatePool, List.length_eq_zero, hall, hh]

/-- Witness for C3 at concrete registries: a routed type with no healthy
record falls back to the full list, and a type with no routing and a missing
default yields the per-type error. -/
theorem candidate_pool_spec_witness :
    ((Config.mk "a" [⟨"a", "ua"⟩] [("img", "a")] [] []).GetBackendsByType "img" ≠ [] ∧
      (Config.mk "a" [⟨"a", "ua"⟩] [("img", "a")] [] []).GetHealthyBackendsByType "img" = [] ∧
      candidatePool (Config.mk "a" [⟨"a", "ua"⟩] [("img", "a")] [] []) "img" =
        PoolResult.pool ["ua"]) ∧
    ((Config.mk "" [⟨"a", "ua"⟩] [] [] []).GetBackendsByType "img" = [] ∧
      candidatePool (Config.mk "" [⟨"a", "ua"⟩] [] [] []) "img" = PoolResult.noBackend) := by
  constructor
  · refine ⟨by decide, by decide, ?_⟩
    have h := (candidate_pool_spec (Config.mk "a" [⟨"a", "ua"⟩] [("img", "a")] [] [])
      "img").2.2.2 ⟨by decide, by decide⟩
    simpa using h
  · refine ⟨by decide, ?_⟩
    exact (candidate_pool_spec (Config.mk "" [⟨"a", "ua"⟩] [] [] []) "img").1
      ⟨by decide, Or.inl rfl⟩

/-! ## Health-aware selection (C8) -/

theorem getNextBackend_singleton (t : String) (u : String) (s : RRState) :
    GetNextBackend t [u] s = (u, { cursors := setAssoc s.cursors t (cursorOf s t + 1) }) := by
  simp [GetNextBackend, Nat.mod_one]

theorem selectBackendForType_mem_healthy (c : Config) (t : String) (s : RRState)
    (hh : c.GetHealthyBackendsByType t ≠ []) :
    ∀ b s', selectBackendForType c t s = (SelectResult.ok b, s') →
      b ∈ c.GetHealthyBackendsByType t := by
  intro b s' hsel
  have hlen : (c.GetHealthyBackendsByType t).length ≤ 1 := by
    calc (c.GetHealthyBackendsByType t).length
        ≤ (c.GetBackendsByType t).length := (getHealthy_sub_getBackends c t).length_le
      _ ≤ 1 := getBackends_length_le_one c t
  have hlen1 : (c.GetHealthyBackendsByType t).length = 1 := by
    have := List.length_pos.mpr hh
    omega
  obtain ⟨b0, hb0⟩ := List.length_eq_one.mp hlen1
  have hall : c.GetBackendsByType t = [b0] := by
    rw [← getHealthy_eq_all_of_ne_nil c t hh, hb0]
  have hpool : candidatePool c t = PoolResult.pool [b0.url] := by
    have h := candidatePool_of_healthy_ne_nil c t hh
    rw [hb0] at h
    simpa using h
  by_cases hu : b0.url = ""
  · have hred : selectBackendForType c t s =
        (SelectResult.err ("no backend available for type: " ++ t),
          { cursors := setAssoc s.cursors t (cursorOf s t + 1) }) := by
      simp only [selectBackendForType, hpool, getNextBackend_singleton, if_pos hu]
    rw [hred] at hsel
    simp at hsel
  · have hred : selectBackendForType c t s =
        (SelectResult.ok b0, { cursors := setAssoc s.cursors t (cursorOf s t + 1) }) := by
      simp only [selectBackendForType, hpool, getNextBackend_singleton, if_neg hu, hall,
        findByURL, if_pos rfl]
      simp
    rw [hred] at hsel
    simp only [Prod.mk.injEq, SelectResult.ok.injEq] at hsel
    rw [hb0, ← hsel.1]
    simp

/--
C8: after a forwarded call for some type returned a non-200 status — which
marks the selected backend unhealthy with the captured status and body — a
subsequent selection for a type whose recomputed healthy candidate list is
non-empty picks a backend with a healthy record, hence never the backend just
marked unhealthy.
-/
theorem unhealthy_backend_never_selected (c : Config) (bad : Backend)
    (statusCode : Nat) (body : String) (now : Int) (t : String) (s : RRState)
    (b : Backend) (s' : RRState)
    (hcode : statusCode ≠ 200)
    (hhealthy :
      (updateHealthAfterForward c bad statusCode body now).GetHealthyBackendsByType t ≠ [])
    (hsel : selectBackendForType (updateHealthAfterForward c bad statusCode body now) t s
      = (SelectResult.ok b, s')) :
    b.name ≠ bad.name := by
  set c' := updateHealthAfterForward c bad statusCode body now with hc'
  have hmem : b ∈ c'.GetHealthyBackendsByType t :=
    selectBackendForType_mem_healthy c' t s hhealthy b s' hsel
  obtain ⟨h, hlk, hst⟩ := mem_getHealthy_status c' t b hmem
  intro heq
  have hbad : lookupAssoc c'.Health bad.name =
      some { status := HealthStatus.unhealthy, lastCheck := now,
             error := "status " ++ toString statusCode ++ ": " ++ body } := by
    rw [hc']
    unfold updateHealthAfterForward
    rw [if_neg hcode]
    unfold Config.SetHealthStatus
    exact lookupAssoc_setAssoc_self _ _ _
  rw [heq, hbad] at hlk
  have : h.status = HealthStatus.unhealthy := by
    cases hlk
    rfl
  rw [this] at hst
  exact HealthStatus.noConfusion hst

/-- Witness for C8: backend `a` is marked unhealthy by a 500 answer; type
`img` routes to the still-healthy backend `b`, which is what the selector
returns. -/
theorem unhealthy_backend_never_selected_witness :
    (500 ≠ 200) ∧
    (updateHealthAfterForward
        (Config.mk "a" [⟨"a", "ua"⟩, ⟨"b", "ub"⟩] [("img", "b")] []
          [("b", ⟨HealthStatus.healthy, 1, ""⟩)])
        ⟨"a", "ua"⟩ 500 "boom" 2).GetHealthyBackendsByType "img" ≠ [] ∧
    selectBackendForType
        (updateHealthAfterForward
          (Config.mk "a" [⟨"a", "ua"⟩, ⟨"b", "ub"⟩] [("img", "b")] []
            [("b", ⟨HealthStatus.healthy, 1, ""⟩)])
          ⟨"a", "ua"⟩ 500 "boom" 2) "img" (RRState.mk [])
      = (SelectResult.ok ⟨"b", "ub"⟩, RRState.mk [("img", 1)]) ∧
    (⟨"b", "ub"⟩ : Backend).name ≠ (⟨"a", "ua"⟩ : Backend).name := by
  refine ⟨by decide, by decide, by decide, ?_⟩
  exact unhealthy_backend_never_selected
    (Config.mk "a" [⟨"a", "ua"⟩, ⟨"b", "ub"⟩] [("img", "b")] []
      [("b", ⟨HealthStatus.healthy, 1, ""⟩)])
    ⟨"a", "ua"⟩ 500 "boom" 2 "img" (RRState.mk []) ⟨"b", "ub"⟩ (RRState.mk [("img", 1)])
    (by decide) (by decide) (by decide)

/-! ## Config replace (C9, C2) -/

/--
C9: a `POST /api/config` body with an empty backends list, an empty
defaultBackend, or a defaultBackend name that does not occur in the backends
list is answered 400, and both the in-memory configuration and the persisted
config file are left completely unchanged.
-/
theorem config_post_validation_rejects_unchanged (s : ServerState) (req : ConfigRequest)
    (saveOk : Bool)
    (hbad : req.backends = [] ∨ req.defaultBackend = "" ∨
      findBackend req.backends req.defaultBackend = none) :
    (ConfigPostHandler s req saveOk).1 = s ∧
    ∃ msg, (ConfigPostHandler s req saveOk).2 = ConfigPostResponse.badRequest msg := by
  rcases hbad with h | h | h
  · simp [ConfigPostHandler, h]
  · by_cases h1 : req.backends.length = 0
    · simp [ConfigPostHandler, h1]
    · simp [ConfigPostHandler, h1, h]
  · by_cases h1 : req.backends.length = 0
    · simp [ConfigPostHandler, h1]
    · by_cases h2 : req.defaultBackend = ""
      · simp [ConfigPostHandler, h1, h2]
      · simp [ConfigPostHandler, h1, h2, h]

/-- Witness for C9: a default backend absent from the backends list is
rejected with 400 and the state survives untouched. -/
theorem config_post_validation_rejects_unchanged_witness :
    (ConfigPostHandler
        (ServerState.mk (Config.mk "a" [⟨"a", "ua"⟩] [] [] [])
          (Config.mk "a" [⟨"a", "ua"⟩] [] [] []))
        (ConfigRequest.mk "ghost" [⟨"b", "ub"⟩] [] []) true).1
      = ServerState.mk (Config.mk "a" [⟨"a", "ua"⟩] [] [] [])
          (Config.mk "a" [⟨"a", "ua"⟩] [] [] []) ∧
    ∃ msg, (ConfigPostHandler
        (ServerState.mk (Config.mk "a" [⟨"a", "ua"⟩] [] [] [])
          (Config.mk "a" [⟨"a", "ua"⟩] [] [] []))
        (ConfigRequest.mk "ghost" [⟨"b", "ub"⟩] [] []) true).2
      = ConfigPostResponse.badRequest msg :=
  config_post_validation_rejects_unchanged
    (ServerState.mk (Config.mk "a" [⟨"a", "ua"⟩] [] [] [])
      (Config.mk "a" [⟨"a", "ua"⟩] [] [] []))
    (ConfigRequest.mk "ghost" [⟨"b", "ub"⟩] [] []) true
    (Or.inr (Or.inr (by decide)))

/-- Counterexample to C2 as stated: with a valid body and a failing save the
handler answers 500, yet the in-memory registry has already been replaced —
`DefaultBackend` moved from `"a"` to `"b"`. -/
theorem config_post_mutates_before_save_counterexample :
    (ConfigPostHandler
        (ServerState.mk (Config.mk "a" [⟨"a", "ua"⟩] [] [] [])
          (Config.mk "a" [⟨"a", "ua"⟩] [] [] []))
        (ConfigRequest.mk "b" [⟨"b", "ub"⟩] [] []) false).2
      = ConfigPostResponse.serverError "save failed" ∧
    (ConfigPostHandler
        (ServerState.mk (Config.mk "a" [⟨"a", "ua"⟩] [] [] [])
          (Config.mk "a" [⟨"a", "ua"⟩] [] [] []))
        (ConfigRequest.mk "b" [⟨"b", "ub"⟩] [] []) false).1.mem.DefaultBackend = "b" ∧
    ("b" : String) ≠ "a" := by
  refine ⟨by decide, by decide, by decide⟩

/--
C2 (amended): for a validated config replace whose persistence fails, the
handler answers 500 and the persisted file keeps its previous content, but
the in-memory registry has already committed the new `DefaultBackend`,
`Backends`, `TaskRouting` (and model-type routing): mutation precedes
persistence.
-/
theorem config_post_save_failure_behavior (s : ServerState) (req : ConfigRequest)
    (h1 : req.backends ≠ []) (h2 : req.defaultBackend ≠ "")
    (h3 : findBackend req.backends req.defaultBackend ≠ none) :
    (ConfigPostHandler s req false).2 = ConfigPostResponse.serverError "save failed" ∧
    (ConfigPostHandler s req false).1.file = s.file ∧
    (ConfigPostHandler s req false).1.mem =
      { s.mem with
        DefaultBackend := req.defaultBackend
        Backends := req.backends
        TaskRouting := req.taskRouting
        ModelTypeRouting := req.modelTypeRouting } := by
  have hl : ¬req.backends.length = 0 := by
    simpa [List.length_eq_zero] using h1
  have hn : ¬(findBackend req.backends req.defaultBackend).isNone = true := by
    simpa [Option.isNone_iff_eq_none] using h3
  simp [ConfigPostHandler, hl, h2, hn]

/-- Witness for the amended C2 behavior at a concrete state and request. -/
theorem config_post_save_failure_behavior_witness :
    (ConfigPostHandler
        (ServerState.mk (Config.mk "a" [⟨"a", "ua"⟩] [] [] [])
          (Config.mk "a" [⟨"a", "ua"⟩] [] [] []))
        (ConfigRequest.mk "b" [⟨"b", "ub"⟩] [("t", "b")] []) false).2
      = ConfigPostResponse.serverError "save failed" ∧
    (ConfigPostHandler
        (ServerState.mk (Config.mk "a" [⟨"a", "ua"⟩] [] [] [])
          (Config.mk "a" [⟨"a", "ua"⟩] [] [] []))
        (ConfigRequest.mk "b" [⟨"b", "ub"⟩] [("t", "b")] []) false).1.file
      = Config.mk "a" [⟨"a", "ua"⟩] [] [] [] ∧
    (ConfigPostHandler
        (ServerState.mk (Config.mk "a" [⟨"a", "ua"⟩] [] [] [])
          (Config.mk "a" [⟨"a", "ua"⟩] [] [] []))
        (ConfigRequest.mk "b" [⟨"b", "ub"⟩] [("t", "b")] []) false).1.mem
      = Config.mk "b" [⟨"b", "ub"⟩] [("t", "b")] [] [] :=
  config_post_save_failure_behavior
    (ServerState.mk (Config.mk "a" [⟨"a", "ua"⟩] [] [] [])
      (Config.mk "a" [⟨"a", "ua"⟩] [] [] []))
    (ConfigRequest.mk "b" [⟨"b", "ub"⟩] [("t", "b")] [])
    (by decide) (by decide) (by decide)

/-! ## Ping (C6) -/

/--
C6: `GET /ping` answers 503 when zero backends are configured; otherwise,
after probing every configured backend and recording the outcomes, it answers
200 `pong` exactly when the default backend exists with healthy status and
every type in the routing table has a non-empty healthy backend list, and 503
in every other case.
-/
theorem ping_response_spec (c : Config) (probe : String → ProbeResult) (now : Int) :
    (c.Backends = [] → (PingHandler c probe now).1 = PingResponse.unavailable) ∧
    (c.Backends ≠ [] →
      ((PingHandler c probe now).1 = PingResponse.pong ↔
        (∃ db, (updateHealthFromProbes c probe now).GetDefaultBackend = some db ∧
          ((updateHealthFromProbes c probe now).GetHealthStatus db.name).status
            = HealthStatus.healthy) ∧
        ∀ t ∈ (updateHealthFromProbes c probe now).GetAllTypes,
          (updateHealthFromProbes c probe now).GetHealthyBackendsByType t ≠ [])) := by
  constructor
  · intro h
    simp [PingHandler, Config.GetAllBackendURLs, h]
  · intro h
    have hlen : ¬c.GetAllBackendURLs.length = 0 := by
      simpa [Config.GetAllBackendURLs, List.length_eq_zero] using h
    unfold PingHandler
    rw [if_neg hlen]
    rcases hd : (updateHealthFromProbes c probe now).GetDefaultBackend with _ | db <;>
      simp only [hd]
    · constructor
      · intro hpong
        exact absurd hpong (by simp)
      · rintro ⟨⟨db, hdb, _⟩, _⟩
        exact Option.noConfusion hdb
    by_cases hs : ((updateHealthFromProbes c probe now).GetHealthStatus db.name).status
        = HealthStatus.healthy
    · rw [if_neg (by simp [hs])]
      by_cases hall : (updateHealthFromProbes c probe now).GetAllTypes.all
          (fun typeName =>
            ((updateHealthFromProbes c probe now).GetHealthyBackendsByType typeName).length
              ≠ 0) = true
      · rw [if_pos hall]
        refine ⟨fun _ => ⟨⟨db, rfl, hs⟩, ?_⟩, fun _ => rfl⟩
        intro t ht
        have ha := List.all_eq_true.mp hall t ht
        simp only [decide_eq_true_eq] at ha
        simpa [List.length_eq_zero] using ha
      · rw [if_neg hall]
        constructor
        · intro hpong
          exact absurd hpong (by simp)
        · rintro ⟨_, htypes⟩
          refine absurd ?_ hall
          refine List.all_eq_true.mpr ?_
          intro t ht
          simp only [decide_eq_true_eq]
          simpa [List.length_eq_zero] using htypes t ht
    · rw [if_pos hs]
      constructor
      · intro hpong
        exact absurd hpong (by simp)
      · rintro ⟨⟨db', hdb', hs'⟩, _⟩
        obtain rfl := Option.some.inj hdb'
        exact absurd hs' hs

/-- Witness for C6: a single healthy-probing backend that is the default and
serves the one routed type yields `pong`; the empty registry yields 503. -/
theorem ping_response_spec_witness :
    (PingHandler (Config.mk "" [] [] [] []) (fun _ => ProbeResult.mk true "") 0).1
      = PingResponse.unavailable ∧
    (PingHandler (Config.mk "a" [⟨"a", "ua"⟩] [("img", "a")] [] [])
        (fun _ => ProbeResult.mk true "") 7).1 = PingResponse.pong := by
  constructor
  · exact (ping_response_spec (Config.mk "" [] [] [] [])
      (fun _ => ProbeResult.mk true "") 0).1 rfl
  · refine ((ping_response_spec (Config.mk "a" [⟨"a", "ua"⟩] [("img", "a")] [] [])
      (fun _ => ProbeResult.mk true "") 7).2 (by simp)).mpr ?_
    exact ⟨⟨⟨"a", "ua"⟩, by decide, by decide⟩, by decide⟩

/-! ## Entry parsing (C7) -/

theorem entriesOfTypes_length (task : String) (l : List (String × Json)) (idx : Nat) :
    (entriesOfTypes task l idx).length = l.length := by
  induction l generalizing idx with
  | nil => rfl
  | cons p rest ih =>
    obtain ⟨ty, pl⟩ := p
    simp [entriesOfTypes, ih]

theorem entriesOfTypes_map_index (task : String) (l : List (String × Json)) (idx : Nat) :
    (entriesOfTypes task l idx).map Entry.index = List.range' idx l.length := by
  induction l generalizing idx with
  | nil => rfl
  | cons p rest ih =>
    obtain ⟨ty, pl⟩ := p
    simp [entriesOfTypes, List.range', ih]

theorem entriesOfTypes_map_proj (task : String) (l : List (String × Json)) (idx : Nat) :
    (entriesOfTypes task l idx).map (fun e => (e.task, e.type, e.entryData)) =
      l.map (fun q => (task, q.1, q.2)) := by
  induction l generalizing idx with
  | nil => rfl
  | cons p rest ih =>
    obtain ⟨ty, pl⟩ := p
    simp [entriesOfTypes, ih]

theorem parseEntriesAux_error_iff (kvs : List (String × Json)) : ∀ idx : Nat,
    (∃ msg, parseEntriesAux kvs idx = Except.error msg) ↔
      ∃ p ∈ kvs, p.2.isObj = false := by
  induction kvs with
  | nil =>
    intro idx
    simp [parseEntriesAux]
  | cons p rest ih =>
    intro idx
    obtain ⟨task, v⟩ := p
    cases v with
    | obj types =>
      rcases hm : parseEntriesAux rest (idx + types.length) with e | more
      · constructor
        · intro _
          obtain ⟨q, hq, hq2⟩ := (ih (idx + types.length)).mp ⟨e, hm⟩
          exact ⟨q, List.mem_cons_of_mem _ hq, hq2⟩
        · intro _
          exact ⟨e, by simp [parseEntriesAux, hm]⟩
      · constructor
        · rintro ⟨msg, hmsg⟩
          simp [parseEntriesAux, hm] at hmsg
        · rintro ⟨q, hq, hq2⟩
          rcases List.mem_cons.mp hq with h | h
          · subst h
            simp [Json.isObj] at hq2
          · obtain ⟨e, he⟩ := (ih (idx + types.length)).mpr ⟨q, h, hq2⟩
            rw [hm] at he
            exact Except.noConfusion he
    | arr l => exact ⟨fun _ => ⟨(task, Json.arr l), by simp, rfl⟩,
        fun _ => ⟨"invalid types structure for task: " ++ task, rfl⟩⟩
    | str v => exact ⟨fun _ => ⟨(task, Json.str v), by simp, rfl⟩,
        fun _ => ⟨"invalid types structure for task: " ++ task, rfl⟩⟩
    | num v => exact ⟨fun _ => ⟨(task, Json.num v), by simp, rfl⟩,
        fun _ => ⟨"invalid types structure for task: " ++ task, rfl⟩⟩
    | bool v => exact ⟨fun _ => ⟨(task, Json.bool v), by simp, rfl⟩,
        fun _ => ⟨"invalid types structure for task: " ++ task, rfl⟩⟩
    | null => exact ⟨fun _ => ⟨(task, Json.null), by simp, rfl⟩,
        fun _ => ⟨"invalid types structure for task: " ++ task, rfl⟩⟩

theorem parseEntriesAux_ok (kvs : List (String × Json)) : ∀ (idx : Nat) (res : List Entry),
    parseEntriesAux kvs idx = Except.ok res →
      res.map Entry.index = List.range' idx res.length ∧
      res.map (fun e => (e.task, e.type, e.entryData)) =
        kvs.flatMap (fun p => p.2.fields.map (fun q => (p.1, q.1, q.2))) := by
  induction kvs with
  | nil =>
    intro idx res h
    simp [parseEntriesAux] at h
    subst h
    simp
  | cons p rest ih =>
    intro idx res h
    obtain ⟨task, v⟩ := p
    cases v with
    | obj types =>
      rcases hm : parseEntriesAux rest (idx + types.length) with e | more
      · simp [parseEntriesAux, hm] at h
      · simp only [parseEntriesAux, hm] at h
        obtain rfl := Except.ok.inj h
        obtain ⟨ih1, ih2⟩ := ih (idx + types.length) more hm
        constructor
        · rw [List.map_append, entriesOfTypes_map_index, ih1, List.length_append,
            entriesOfTypes_length]
          rw [Nat.add_comm types.length more.length]
          exact List.range'_append_1 idx types.length more.length
        · rw [List.map_append, entriesOfTypes_map_proj, ih2]
          simp [Json.fields]
    | arr l => simp [parseEntriesAux] at h
    | str v => simp [parseEntriesAux] at h
    | num v => simp [parseEntriesAux] at h
    | bool v => simp [parseEntriesAux] at h
    | null => simp [parseEntriesAux] at h

/--
C7: the entry parser fails exactly when the top-level entries value is not a
JSON object or some task's value is not a JSON object; on success it returns
the flat entry list with `originalIndex` values `0, 1, ..., n-1` in encounter
order, one entry per (task, type) pair with the payload carried unmodified.
-/
theorem parse_entries_spec (j : Json) :
    ((∃ msg, parsePredictEntries j = Except.error msg) ↔
      (j.isObj = false ∨ ∃ kvs, j = Json.obj kvs ∧ ∃ p ∈ kvs, p.2.isObj = false)) ∧
    (∀ res, parsePredictEntries j = Except.ok res →
      res.map Entry.index = List.range res.length ∧
      res.map (fun e => (e.task, e.type, e.entryData)) =
        j.fields.flatMap (fun p => p.2.fields.map (fun q => (p.1, q.1, q.2)))) := by
  cases j with
  | obj kvs =>
    constructor
    · rw [show parsePredictEntries (Json.obj kvs) = parseEntriesAux kvs 0 from rfl]
      rw [parseEntriesAux_error_iff kvs 0]
      constructor
      · intro h
        exact Or.inr ⟨kvs, rfl, h⟩
      · rintro (h | ⟨kvs', hk, h⟩)
        · simp [Json.isObj] at h
        · obtain rfl := (Json.obj.inj hk)
          exact h
    · intro res h
      have hres := parseEntriesAux_ok kvs 0 res h
      rw [List.range_eq_range']
      exact hres
  | arr l => exact ⟨⟨fun _ => Or.inl rfl, fun _ => ⟨_, rfl⟩⟩, fun res h => Except.noConfusion h⟩
  | str v => exact ⟨⟨fun _ => Or.inl rfl, fun _ => ⟨_, rfl⟩⟩, fun res h => Except.noConfusion h⟩
  | num v => exact ⟨⟨fun _ => Or.inl rfl, fun _ => ⟨_, rfl⟩⟩, fun res h => Except.noConfusion h⟩
  | bool v => exact ⟨⟨fun _ => Or.inl rfl, fun _ => ⟨_, rfl⟩⟩, fun res h => Except.noConfusion h⟩
  | null => exact ⟨⟨fun _ => Or.inl rfl, fun _ => ⟨_, rfl⟩⟩, fun res h => Except.noConfusion h⟩

/-- Witness for C7: a two-task payload parses into consecutively numbered
entries, and a non-object task value is rejected. -/
theorem parse_entries_spec_witness :
    parsePredictEntries
        (Json.obj [("task1", Json.obj [("image", Json.null)]),
                   ("task2", Json.obj [("text", Json.num 3)])])
      = Except.ok
          [{ task := "task1", type := "image", entryData := Json.null, index := 0 },
           { task := "task2", type := "text", entryData := Json.num 3, index := 1 }] ∧
    ([{ task := "task1", type := "image", entryData := Json.null, index := 0 },
      { task := "task2", type := "text", entryData := Json.num 3, index := 1 }].map
        Entry.index = List.range 2) ∧
    (∃ msg, parsePredictEntries (Json.obj [("task1", Json.str "oops")])
      = Except.error msg) := by
  refine ⟨rfl, ?_, ?_⟩
  · exact ((parse_entries_spec
      (Json.obj [("task1", Json.obj [("image", Json.null)]),
                 ("task2", Json.obj [("text", Json.num 3)])])).2 _ rfl).1
  · exact (parse_entries_spec (Json.obj [("task1", Json.str "oops")])).1.mpr
      (Or.inr ⟨[("task1", Json.str "oops")], rfl, ⟨("task1", Json.str "oops"), by simp, rfl⟩⟩)

/-! ## Post-barrier aggregation (C4) and assembly (C5) -/

theorem mem_dedupKeepFirst (x : String) (l : List String) :
    x ∈ dedupKeepFirst l ↔ x ∈ l := by
  induction l with
  | nil => simp [dedupKeepFirst]
  | cons y ys ih =>
    by_cases h : x = y
    · subst h
      simp [dedupKeepFirst]
    · simp [dedupKeepFirst, List.mem_filter, ih, h]

theorem mem_typesOf (t : String) (entries : List Entry) :
    t ∈ typesOf entries ↔ ∃ e ∈ entries, e.type = t := by
  rw [typesOf, mem_dedupKeepFirst, List.mem_map]

/--
C4: whenever at least one type group failed, the post-barrier code of
`PredictHandler` answers a 500 aggregate error holding exactly one message
per failed type — covering every failed type, since the barrier collected
every sibling group's outcome — and the result assembler is never invoked:
no successful group's result reaches the caller.
-/
theorem predict_aggregate_error_spec (entries : List Entry)
    (outcome : String → GroupOutcome)
    (hfail : ∃ e ∈ entries, (outcome e.type).isErr = true) :
    predictFinish entries outcome =
      PredictResponse.serverError
        (((typesOf entries).filter (fun t => (outcome t).isErr)).map
          (fun t => "type " ++ t ++ ": " ++ (outcome t).msg)) ∧
    (∀ res, predictFinish entries outcome ≠ PredictResponse.ok res) ∧
    (∀ e ∈ entries, (outcome e.type).isErr = true →
      ("type " ++ e.type ++ ": " ++ (outcome e.type).msg) ∈
        ((typesOf entries).filter (fun t => (outcome t).isErr)).map
          (fun t => "type " ++ t ++ ": " ++ (outcome t).msg)) := by
  obtain ⟨e0, he0, herr0⟩ := hfail
  have hmem : e0.type ∈ (typesOf entries).filter (fun t => (outcome t).isErr) :=
    List.mem_filter.mpr ⟨(mem_typesOf e0.type entries).mpr ⟨e0, he0, rfl⟩, herr0⟩
  have hpos : ((typesOf entries).filter (fun t => (outcome t).isErr)).length > 0 :=
    List.length_pos.mpr (List.ne_nil_of_mem hmem)
  refine ⟨?_, ?_, ?_⟩
  · simp only [predictFinish, if_pos hpos]
  · intro res
    simp only [predictFinish, if_pos hpos]
    intro hcon
    cases hcon
  · intro e he herr
    exact List.mem_map.mpr ⟨e.type,
      List.mem_filter.mpr ⟨(mem_typesOf e.type entries).mpr ⟨e, he, rfl⟩, herr⟩, rfl⟩

/-- Witness for C4: a failing `"tB"` group beside a succeeding `"tA"` group
yields the aggregate 500 with the single `"tB"` message. -/
theorem predict_aggregate_error_spec_witness :
    predictFinish
        [{ task := "u", type := "tA", entryData := Json.null, index := 0 },
         { task := "v", type := "tB", entryData := Json.null, index := 1 }]
        (fun t => if t = "tB" then GroupOutcome.err "boom"
          else GroupOutcome.ok [("k", Json.num 1)])
      = PredictResponse.serverError ["type tB: boom"] ∧
    (∀ res, predictFinish
        [{ task := "u", type := "tA", entryData := Json.null, index := 0 },
         { task := "v", type := "tB", entryData := Json.null, index := 1 }]
        (fun t => if t = "tB" then GroupOutcome.err "boom"
          else GroupOutcome.ok [("k", Json.num 1)])
      ≠ PredictResponse.ok res) := by
  have h := predict_aggregate_error_spec
    [{ task := "u", type := "tA", entryData := Json.null, index := 0 },
     { task := "v", type := "tB", entryData := Json.null, index := 1 }]
    (fun t => if t = "tB" then GroupOutcome.err "boom"
      else GroupOutcome.ok [("k", Json.num 1)])
    ⟨{ task := "v", type := "tB", entryData := Json.null, index := 1 }, by simp, rfl⟩
  exact ⟨h.1, h.2.1⟩

theorem lookupAssoc_setAssoc {α : Type} (m : List (String × α)) (k k' : String) (v : α) :
    lookupAssoc (setAssoc m k v) k' =
      if k = k' then some v else lookupAssoc m k' := by
  by_cases h : k = k'
  · subst h
    rw [if_pos rfl]
    exact lookupAssoc_setAssoc_self m k v
  · rw [if_neg h]
    exact lookupAssoc_setAssoc_ne m k k' v h

theorem lookupAssoc_eq_none_of_not_mem_keys {α : Type} (m : List (String × α)) (k : String)
    (h : k ∉ m.map Prod.fst) : lookupAssoc m k = none := by
  induction m with
  | nil => rfl
  | cons p rest ih =>
    obtain ⟨k0, v0⟩ := p
    simp only [List.map_cons, List.mem_cons] at h
    push_neg at h
    rw [lookupAssoc_cons, if_neg (fun hk => h.1 hk.symm)]
    exact ih h.2

theorem lookup_mergeObj (m : List (String × Json)) :
    ∀ (acc : List (String × Json)) (k : String), (m.map Prod.fst).Nodup →
      lookupAssoc (mergeObj acc m) k =
        match lookupAssoc m k with
        | some v => some v
        | none => lookupAssoc acc k := by
  induction m with
  | nil =>
    intro acc k _
    rfl
  | cons p rest ih =>
    intro acc k hnd
    obtain ⟨k0, v0⟩ := p
    simp only [List.map_cons, List.nodup_cons] at hnd
    have hstep : mergeObj acc ((k0, v0) :: rest) = mergeObj (setAssoc acc k0 v0) rest := rfl
    rw [hstep, ih (setAssoc acc k0 v0) k hnd.2]
    by_cases h : k0 = k
    · subst h
      have hrest : lookupAssoc rest k0 = none :=
        lookupAssoc_eq_none_of_not_mem_keys rest k0 hnd.1
      simp [hrest, lookupAssoc_setAssoc_self]
    · simp only [lookupAssoc_cons, if_neg h, lookupAssoc_setAssoc_ne acc k0 k v0 h]

theorem lookup_assemble (tr : String → List (String × Json)) (entries : List Entry)
    (hnd : ∀ e ∈ entries, ((tr e.type).map Prod.fst).Nodup) (k : String) :
    lookupAssoc (assemble entries tr) k =
      match entries.reverse.find? (fun e => (lookupAssoc (tr e.type) k).isSome) with
      | some e => lookupAssoc (tr e.type) k
      | none => none := by
  induction entries using List.reverseRecOn with
  | nil => rfl
  | append_singleton es e ih =>
    have hstep : assemble (es ++ [e]) tr = mergeObj (assemble es tr) (tr e.type) := by
      simp [assemble, List.foldl_append, mergeObj]
    rw [hstep, lookup_mergeObj (tr e.type) (assemble es tr) k (hnd e (by simp))]
    rw [List.reverse_append]
    simp only [List.reverse_singleton, List.singleton_append, List.find?_cons]
    rcases hl : lookupAssoc (tr e.type) k with _ | v
    · simp only [hl, Option.isSome_none]
      rw [ih (fun e' he' => hnd e' (List.mem_append_left _ he'))]
    · simp [hl]

/--
C5: when every type group of a predict request succeeds, the response is the
assembled merge, whose key set is the union over the types appearing in the
entry list of the keys of that type's backend result, and a key contributed
by several entries carries the value of the entry occurring last in the
original entry order (last-write-wins).  Backend results are JSON objects,
so their key lists are duplicate-free.
-/
theorem predict_success_merge_spec (entries : List Entry)
    (outcome : String → GroupOutcome)
    (hok : ∀ e ∈ entries, (outcome e.type).isErr = false)
    (hnd : ∀ e ∈ entries, (((outcome e.type).result).map Prod.fst).Nodup) :
    predictFinish entries outcome =
      PredictResponse.ok (assemble entries (fun t => (outcome t).result)) ∧
    (∀ k, (lookupAssoc (assemble entries (fun t => (outcome t).result)) k).isSome = true ↔
      ∃ e ∈ entries, (lookupAssoc ((outcome e.type).result) k).isSome = true) ∧
    (∀ k e, entries.reverse.find?
        (fun e => (lookupAssoc ((outcome e.type).result) k).isSome) = some e →
      lookupAssoc (assemble entries (fun t => (outcome t).result)) k =
        lookupAssoc ((outcome e.type).result) k) := by
  refine ⟨?_, ?_, ?_⟩
  · have hfilter : (typesOf entries).filter (fun t => (outcome t).isErr) = [] := by
      rw [List.filter_eq_nil_iff]
      intro t ht
      obtain ⟨e, he, rfl⟩ := (mem_typesOf t entries).mp ht
      simp [hok e he]
    simp [predictFinish, hfilter]
  · intro k
    rw [lookup_assemble (fun t => (outcome t).result) entries hnd k]
    rcases hf : entries.reverse.find?
        (fun e => (lookupAssoc ((outcome e.type).result) k).isSome) with _ | e <;>
      simp only [hf]
    · simp only [Option.isSome_none, Bool.false_eq_true, false_iff]
      rintro ⟨e, he, hsome⟩
      have hnone := List.find?_eq_none.mp hf e (List.mem_reverse.mpr he)
      simp [hsome] at hnone
    · have hp := List.find?_some hf
      have hm := List.mem_of_find?_eq_some hf
      exact ⟨fun _ => ⟨e, List.mem_reverse.mp hm, hp⟩, fun _ => hp⟩
  · intro k e hf
    rw [lookup_assemble (fun t => (outcome t).result) entries hnd k, hf]

/-- Witness for C5: two entries of different tasks contribute the key `"k"`;
the later entry's value wins and the key set is the union. -/
theorem predict_success_merge_spec_witness :
    predictFinish
        [{ task := "u", type := "tA", entryData := Json.null, index := 0 },
         { task := "v", type := "tB", entryData := Json.null, index := 1 }]
        (fun t => if t = "tA" then GroupOutcome.ok [("k", Json.str "first")]
          else if t = "tB" then GroupOutcome.ok [("k", Json.str "second"), ("x", Json.num 1)]
          else GroupOutcome.ok [])
      = PredictResponse.ok [("k", Json.str "second"), ("x", Json.num 1)] ∧
    lookupAssoc [(("k" : String), Json.str "second"), ("x", Json.num 1)] "k"
      = some (Json.str "second") := by
  constructor
  · have h := (predict_success_merge_spec
      [{ task := "u", type := "tA", entryData := Json.null, index := 0 },
       { task := "v", type := "tB", entryData := Json.null, index := 1 }]
      (fun t => if t = "tA" then GroupOutcome.ok [("k", Json.str "first")]
        else if t = "tB" then GroupOutcome.ok [("k", Json.str "second"), ("x", Json.num 1)]
        else GroupOutcome.ok [])
      (by
        intro e he
        simp only [List.mem_cons, List.not_mem_nil, or_false] at he
        rcases he with rfl | rfl <;> decide)
      (by
        intro e he
        simp only [List.mem_cons, List.not_mem_nil, or_false] at he
        rcases he with rfl | rfl <;> decide)).1
    rw [h]
    rfl
  · rfl

/-! ## Round-robin cycling (C1) -/

theorem cursorOf_getNextBackend (t : String) (pool : List String) (s : RRState)
    (h : pool ≠ []) : cursorOf (GetNextBackend t pool s).2 t = cursorOf s t + 1 := by
  have hl : ¬pool.length = 0 := by simpa [List.length_eq_zero] using h
  simp only [GetNextBackend, if_neg hl]
  unfold cursorOf
  simp [lookupAssoc_setAssoc_self]

theorem cursorOf_rrStates (t : String) (pool : List String) (s : RRState)
    (h : pool ≠ []) : ∀ n, cursorOf (rrStates t pool s n) t = cursorOf s t + n := by
  intro n
  induction n with
  | zero => rfl
  | succ n ih =>
    rw [rrStates, cursorOf_getNextBackend t pool _ h, ih, Nat.add_assoc]

theorem rrSelect_formula (t : String) (pool : List String) (s : RRState)
    (h : pool ≠ []) (n : Nat) :
    rrSelect t pool s n = pool.getD ((cursorOf s t + n) % pool.length) "" := by
  have hl : ¬pool.length = 0 := by simpa [List.length_eq_zero] using h
  unfold rrSelect
  simp only [GetNextBackend, if_neg hl]
  rw [cursorOf_rrStates t pool s h n]

theorem rrSelect_periodic (t : String) (pool : List String) (s : RRState)
    (h : pool ≠ []) (n : Nat) :
    rrSelect t pool s (n + pool.length) = rrSelect t pool s n := by
  rw [rrSelect_formula t pool s h, rrSelect_formula t pool s h,
    ← Nat.add_assoc, Nat.add_mod_right]

theorem rrSelect_window_distinct (t : String) (pool : List String) (s : RRState)
    (h : pool ≠ []) (hnd : pool.Nodup) (i j : Nat) (hij : i < j)
    (hj : j < i + pool.length) :
    rrSelect t pool s i ≠ rrSelect t pool s j := by
  have hN : 0 < pool.length := List.length_pos.mpr h
  rw [rrSelect_formula t pool s h i, rrSelect_formula t pool s h j]
  have hi' : (cursorOf s t + i) % pool.length < pool.length := Nat.mod_lt _ hN
  have hj' : (cursorOf s t + j) % pool.length < pool.length := Nat.mod_lt _ hN
  have hne : (cursorOf s t + i) % pool.length ≠ (cursorOf s t + j) % pool.length := by
    intro he
    have hmod : i ≡ j [MOD pool.length] := Nat.ModEq.add_left_cancel' (cursorOf s t) he
    have hdvd : pool.length ∣ j - i := (Nat.modEq_iff_dvd' (Nat.le_of_lt hij)).mp hmod
    have hle := Nat.le_of_dvd (by omega) hdvd
    omega
  intro heq
  rw [List.getD_eq_getElem pool "" hi', List.getD_eq_getElem pool "" hj'] at heq
  exact hne ((List.Nodup.getElem_inj_iff hnd).mp heq)

theorem rrSelect_covers (t : String) (pool : List String) (s : RRState)
    (h : pool ≠ []) (u : String) (hu : u ∈ pool) (i : Nat) :
    ∃ k, i ≤ k ∧ k < i + pool.length ∧ rrSelect t pool s k = u := by
  have hN : 0 < pool.length := List.length_pos.mpr h
  obtain ⟨m, hm, hget⟩ := List.mem_iff_getElem.mp hu
  have hr : (cursorOf s t + i) % pool.length < pool.length := Nat.mod_lt _ hN
  refine ⟨i + ((m + pool.length - (cursorOf s t + i) % pool.length) % pool.length),
    Nat.le_add_right _ _, ?_, ?_⟩
  · have := Nat.mod_lt (m + pool.length - (cursorOf s t + i) % pool.length) hN
    omega
  · rw [rrSelect_formula t pool s h]
    have hidx : (cursorOf s t +
        (i + ((m + pool.length - (cursorOf s t + i) % pool.length) % pool.length)))
          % pool.length = m := by
      have hdiv : pool.length * ((cursorOf s t + i) / pool.length) +
          (cursorOf s t + i) % pool.length = cursorOf s t + i :=
        Nat.div_add_mod (cursorOf s t + i) pool.length
      rcases le_or_lt ((cursorOf s t + i) % pool.length) m with hrm | hrm
      · have hx1 : (m + pool.length - (cursorOf s t + i) % pool.length) % pool.length =
            m - (cursorOf s t + i) % pool.length := by
          have he : m + pool.length - (cursorOf s t + i) % pool.length =
              (m - (cursorOf s t + i) % pool.length) + pool.length := by omega
          rw [he, Nat.add_mod_right, Nat.mod_eq_of_lt (by omega)]
        rw [hx1]
        have he2 : cursorOf s t + (i + (m - (cursorOf s t + i) % pool.length)) =
            ((cursorOf s t + i) / pool.length) * pool.length + m := by
          rw [Nat.mul_comm]
          omega
        rw [he2, Nat.mul_add_mod', Nat.mod_eq_of_lt hm]
      · have hx1 : (m + pool.length - (cursorOf s t + i) % pool.length) % pool.length =
            m + pool.length - (cursorOf s t + i) % pool.length :=
          Nat.mod_eq_of_lt (by omega)
        rw [hx1]
        have he2 : cursorOf s t +
            (i + (m + pool.length - (cursorOf s t + i) % pool.length)) =
            ((cursorOf s t + i) / pool.length + 1) * pool.length + m := by
          rw [Nat.add_mul, Nat.one_mul, Nat.mul_comm]
          omega
        rw [he2, Nat.mul_add_mod', Nat.mod_eq_of_lt hm]
    rw [hidx]
    rw [List.getD_eq_getElem pool "" (hidx ▸ hm)]
    exact hget

/--
C1: for a fixed candidate pool of `N` distinct backends, the round-robin
selector returns `pool[cursor mod N]` and then increments the per-type
cursor; hence starting from wherever the cursor was left, any `N` consecutive
selections are pairwise distinct and visit every backend of the pool, and the
sequence repeats with period `N`.
-/
theorem round_robin_cycles (t : String) (pool : List String) (s : RRState)
    (hne : pool ≠ []) (hnd : pool.Nodup) :
    (∀ n, rrSelect t pool s n =
      pool.getD ((cursorOf s t + n) % pool.length) "") ∧
    (∀ n, cursorOf (rrStates t pool s (n + 1)) t = cursorOf s t + (n + 1)) ∧
    (∀ i j, i < j → j < i + pool.length →
      rrSelect t pool s i ≠ rrSelect t pool s j) ∧
    (∀ u ∈ pool, ∀ i, ∃ k, i ≤ k ∧ k < i + pool.length ∧ rrSelect t pool s k = u) ∧
    (∀ n, rrSelect t pool s (n + pool.length) = rrSelect t pool s n) :=
  ⟨rrSelect_formula t pool s hne,
   fun n => cursorOf_rrStates t pool s hne (n + 1),
   fun i j hij hj => rrSelect_window_distinct t pool s hne hnd i j hij hj,
   fun u hu i => rrSelect_covers t pool s hne u hu i,
   rrSelect_periodic t pool s hne⟩

/-- Witness for C1: a three-backend pool with the cursor left at 1 yields the
cycle `u2, u3, u1, u2, ...` with no repeat inside a window of three. -/
theorem round_robin_cycles_witness :
    rrSelect "t" ["u1", "u2", "u3"] (RRState.mk [("t", 1)]) 0 = "u2" ∧
    rrSelect "t" ["u1", "u2", "u3"] (RRState.mk [("t", 1)]) 1 = "u3" ∧
    rrSelect "t" ["u1", "u2", "u3"] (RRState.mk [("t", 1)]) 2 = "u1" ∧
    rrSelect "t" ["u1", "u2", "u3"] (RRState.mk [("t", 1)]) 3
      = rrSelect "t" ["u1", "u2", "u3"] (RRState.mk [("t", 1)]) 0 ∧
    rrSelect "t" ["u1", "u2", "u3"] (RRState.mk [("t", 1)]) 0
      ≠ rrSelect "t" ["u1", "u2", "u3"] (RRState.mk [("t", 1)]) 1 := by
  refine ⟨by decide, by decide, by decide, ?_, ?_⟩
  · exact (round_robin_cycles "t" ["u1", "u2", "u3"] (RRState.mk [("t", 1)])
      (by decide) (by decide)).2.2.2.2 0
  · exact (round_robin_cycles "t" ["u1", "u2", "u3"] (RRState.mk [("t", 1)])
      (by decide) (by decide)).2.2.1 0 1 (by decide) (by decide)

end ImmichMLProxy
